import Mathlib

set_option maxRecDepth 8000

/-!
Verification development for the claude-code-telemetry receiver.

This file gives a shallow embedding of the parts of the JavaScript source
relevant to the checked claims: the OTLP attribute extractor, the
normalized-event factories, the agent registry (Claude / Codex / Gemini),
the legacy Codex cost table, the Langfuse sink handlers, the session
finalizer with its percentile statistics, the session cleanup sweep, and
the `/v1/logs` request handler.

Modeling conventions:
* JS numbers are modeled as `Int` (token counts, durations, epoch-ms
  timestamps) or `ℚ` (costs, rates); `NaN` results of `parseInt`/
  `parseFloat` are modeled as `none`.
* The external Langfuse SDK is modeled as a log of calls plus a fresh-id
  counter; a `SinkBehavior` predicate decides which calls throw.
* Exceptions are modeled with `Except`, carrying the mutated state at the
  point of the throw (JS mutations performed before a throw persist).
* Sink call payloads are summarized by call name / session id / a few
  scalar fields; free-form metadata bags attached to sink payloads are not
  tracked (they are write-only for the properties below), except for the
  standalone `normalizeMetadata`, which is modeled in full.
-/

namespace Telemetry

/-! ### JS primitive coercions -/

/-- Numeric value of a list of decimal digit characters. -/
def digitsToNat (l : List Char) : Nat :=
  l.foldl (fun acc c => acc * 10 + (c.toNat - 48)) 0

/-- Model of JS `parseInt(s, 10)`: optional sign, then a maximal run of
leading decimal digits; `none` models the `NaN` result. -/
def jsParseInt (s : String) : Option Int :=
  let chars := s.data.dropWhile (fun c => c = ' ')
  let sign : Int := match chars with
    | '-' :: _ => -1
    | _ => 1
  let rest := match chars with
    | '-' :: r => r
    | '+' :: r => r
    | r => r
  let digs := rest.takeWhile Char.isDigit
  if digs.isEmpty then none
  else some (sign * (digitsToNat digs : Int))

/-- Model of JS `parseFloat(s)`: optional sign, integer digits, optional
fractional digits; `none` models the `NaN` result. -/
def jsParseFloat (s : String) : Option ℚ :=
  let chars := s.data.dropWhile (fun c => c = ' ')
  let sign : ℚ := match chars with
    | '-' :: _ => -1
    | _ => 1
  let rest := match chars with
    | '-' :: r => r
    | '+' :: r => r
    | r => r
  let digs := rest.takeWhile Char.isDigit
  let rest2 := rest.drop digs.length
  let frac := match rest2 with
    | '.' :: r => r.takeWhile Char.isDigit
    | _ => []
  if digs.isEmpty && frac.isEmpty then none
  else some (sign * ((digitsToNat digs : ℚ) + (digitsToNat frac : ℚ) / (10 : ℚ) ^ frac.length))

/-- JS `Math.round`: round half up. -/
def jsRound (q : ℚ) : Int := ⌊q + 1/2⌋

/-- JS truncation toward zero (used by `parseInt` on a fractional number). -/
def ratTrunc (q : ℚ) : Int := if q < 0 then ⌈q⌉ else ⌊q⌋

/-- `s.startsWith(p)` on the character lists (kernel-friendly model of
the JS prefix test). -/
def strStartsWith (s p : String) : Bool := p.data.isPrefixOf s.data

/-- `s.toLowerCase()`. -/
def strToLower (s : String) : String := String.mk (s.data.map Char.toLower)

/-- `s.substring(0, n)`. -/
def strTake (s : String) (n : Nat) : String := String.mk (s.data.take n)

/-! ### Native JS values produced by the OTLP attribute extractor

`Native` mirrors the values the receiver actually builds from well-formed
OTLP attribute payloads: strings, (integral) numbers, doubles, booleans,
arrays and nested maps, where array elements / map values may be `null`
(modeled as `none`). -/

inductive Native where
  | str (s : String)
  | int (n : Int)
  | double (q : ℚ)
  | bool (b : Bool)
  | arr (l : List (Option Native))
  | nmap (l : List (String × Option Native))

/-- JS truthiness of an attribute value (`none` covers both `undefined`
and `null`). -/
def truthyN : Option Native → Bool
  | none => false
  | some (.str s) => !s.isEmpty
  | some (.int n) => n ≠ 0
  | some (.double q) => q ≠ 0
  | some (.bool b) => b
  | some (.arr _) => true
  | some (.nmap _) => true

/-- Decimal rendering of a rational whose denominator is 1; other
denominators are rendered as `num/den` (only integral doubles flow into
string contexts in the modeled code paths). -/
def ratToStr (q : ℚ) : String :=
  if q.den = 1 then toString q.num else toString q.num ++ "/" ++ toString q.den

mutual
/-- Model of JS `String(value)` on extracted native values. -/
def toStrN : Native → String
  | .str s => s
  | .int n => toString n
  | .double q => ratToStr q
  | .bool b => cond b "true" "false"
  | .arr l => String.intercalate "," (toStrArr l)
  | .nmap _ => "[object Object]"

/-- Elementwise JS stringification of an array value (`null` elements
stringify to the empty string). -/
def toStrArr : List (Option Native) → List String
  | [] => []
  | none :: rest => "" :: toStrArr rest
  | some v :: rest => toStrN v :: toStrArr rest
end

/-! ### OTLP attribute model and extractor (`sessionHandler.js`) -/

/-- The OTLP tagged value union carried by a `{key, value}` attribute
entry; `unknownTag` stands for an absent or unrecognized tag. -/
inductive AttrValue where
  | stringValue (s : String)
  | intValue (n : Int)
  | doubleValue (q : ℚ)
  | boolValue (b : Bool)
  | arrayValue (vs : List AttrValue)
  | kvlistValue (kvs : List (String × AttrValue))
  | unknownTag

/-- One entry of an OTLP attribute list. -/
structure KeyValue where
  key : String
  value : AttrValue

mutual
/-- `extractAttributeValue` from `sessionHandler.js`: resolve one tagged
value to a native value; an unknown/absent tag resolves to `null`. -/
def extractAttributeValue : AttrValue → Option Native
  | .stringValue s => some (.str s)
  | .intValue n => some (.int n)
  | .doubleValue q => some (.double q)
  | .boolValue b => some (.bool b)
  | .arrayValue vs => some (.arr (extractValueList vs))
  | .kvlistValue kvs => some (.nmap (extractValueKVs kvs))
  | .unknownTag => none

/-- Recursive resolution of `arrayValue.values`. -/
def extractValueList : List AttrValue → List (Option Native)
  | [] => []
  | v :: rest => extractAttributeValue v :: extractValueList rest

/-- Recursive resolution of `kvlistValue.values`. -/
def extractValueKVs : List (String × AttrValue) → List (String × Option Native)
  | [] => []
  | (k, v) :: rest => (k, extractAttributeValue v) :: extractValueKVs rest
end

/-- The flat key-to-native-value mapping built by the extractor; later
entries for the same key shadow earlier ones, as JS object assignment
does. -/
abbrev Attrs := List (String × Option Native)

/-- `extractAttributesArray` from `sessionHandler.js`; a `none` input
models a missing `attributes` field. -/
def extractAttributesArray (attributes : Option (List KeyValue)) : Attrs :=
  match attributes with
  | none => []
  | some l => l.map (fun a => (a.key, extractAttributeValue a.value))

/-- JS property read `attrs[k]` on the extracted mapping: the last
binding wins; both an absent key and a stored `null` read back as a
falsy non-value. -/
def aGet (attrs : Attrs) (k : String) : Option Native :=
  attrs.foldl (fun acc p => if p.1 = k then p.2 else acc) none

/-- JS `a || b` on attribute reads. -/
def orN (a b : Option Native) : Option Native :=
  if truthyN a then a else b

/-- JS `attrs.x ? ... : d` style string coercion: the native value
stringified when truthy, else the default. -/
def strOr (v : Option Native) (d : String) : String :=
  match v with
  | some x => if truthyN (some x) then toStrN x else d
  | none => d

/-- Raw storage of a possibly-absent attribute into a string field. -/
def optStrField (v : Option Native) : Option String :=
  v.map toStrN

/-- JS `parseInt` applied to a native value. -/
def jsParseIntOf : Native → Option Int
  | .int n => some n
  | .double q => some (ratTrunc q)
  | .str s => jsParseInt s
  | .bool _ => none
  | .arr l => jsParseInt (toStrN (.arr l))
  | .nmap _ => none

/-- JS `parseFloat` applied to a native value. -/
def jsParseFloatOf : Native → Option ℚ
  | .int n => some n
  | .double q => some q
  | .str s => jsParseFloat s
  | .bool _ => none
  | .arr l => jsParseFloat (toStrN (.arr l))
  | .nmap _ => none

/-- `parseInt(attrs.x || d, 10)` with `d` a string literal default. -/
def parseIntAttr (v : Option Native) (d : String) : Option Int :=
  if truthyN v then jsParseIntOf (v.getD (.str "")) else jsParseInt d

/-- `parseFloat(attrs.x || d)` with `d` a string literal default. -/
def parseFloatAttr (v : Option Native) (d : String) : Option ℚ :=
  if truthyN v then jsParseFloatOf (v.getD (.str "")) else jsParseFloat d

end Telemetry

/-! ### Small string/option helpers mirroring JS `||` chains -/

namespace Telemetry

/-- JS `a || d` on an optional string against a string default (the empty
string is falsy). -/
def jsOrS (a : Option String) (d : String) : String :=
  match a with
  | some s => if s.isEmpty then d else s
  | none => d

/-- JS `a || b` on two optional strings. -/
def jsOrSOpt (a b : Option String) : Option String :=
  match a with
  | some s => if s.isEmpty then b else some s
  | none => b

/-- Attribute read coerced to an optional string (falsy reads collapse to
`none`, as in a `... || null` chain). -/
def tGet (v : Option Native) : Option String :=
  if truthyN v then some (toStrN (v.getD (.str ""))) else none

/-- JS addition with `NaN` propagation. -/
def addNaN (a b : Option Int) : Option Int :=
  match a, b with
  | some x, some y => some (x + y)
  | _, _ => none

/-- `attrs.x === 'true' || attrs.x === true`. -/
def isTrueLike (v : Option Native) : Bool :=
  match v with
  | some (.str s) => s = "true"
  | some (.bool b) => b
  | _ => false

/-! ### Normalized events and their factories (`agents/types.js`) -/

/-- Token block of a Generation event. -/
structure Tokens where
  input : Int
  output : Int
  cached : Int
  reasoning : Int
  tool : Int
  total : Int
deriving Repr, DecidableEq

/-- Parameter bag accepted by `createGenerationEvent`; absent fields are
`none` (and `none` also models a `NaN` numeric argument, which JS `|| 0`
maps to `0` exactly like an absent one). -/
structure GenParams where
  timestamp : Option Int := none
  sessionId : String
  model : Option String := none
  durationMs : Option Int := none
  inputTokens : Option Int := none
  outputTokens : Option Int := none
  cachedTokens : Option Int := none
  reasoningTokens : Option Int := none
  toolTokens : Option Int := none
  cost : Option ℚ := none
  requestId : Option String := none
  input : Option String := none
  output : Option String := none

/-- A normalized Generation event. -/
structure GenerationEvent where
  timestamp : Int
  sessionId : String
  model : String
  durationMs : Int
  tokens : Tokens
  cost : ℚ
  requestId : Option String
  input : Option String
  output : Option String
deriving Repr, DecidableEq

/-- `createGenerationEvent` from `agents/types.js`; `now` models
`new Date()` for the timestamp fallback. -/
def createGenerationEvent (now : Int) (p : GenParams) : GenerationEvent :=
  { timestamp := p.timestamp.getD now
    sessionId := p.sessionId
    model := jsOrS p.model "unknown"
    durationMs := p.durationMs.getD 0
    tokens :=
      { input := p.inputTokens.getD 0
        output := p.outputTokens.getD 0
        cached := p.cachedTokens.getD 0
        reasoning := p.reasoningTokens.getD 0
        tool := p.toolTokens.getD 0
        total := p.inputTokens.getD 0 + p.outputTokens.getD 0 + p.cachedTokens.getD 0 +
          p.reasoningTokens.getD 0 + p.toolTokens.getD 0 }
    cost := p.cost.getD 0
    requestId := p.requestId
    input := p.input
    output := p.output }

/-- A normalized ConversationStart event (config fields that are only
echoed into sink payload metadata are summarized by the ones read back by
the sink handlers). -/
structure ConversationStartEvent where
  timestamp : Int
  sessionId : String
  userId : Option String
  provider : String
  model : Option String
  approvalPolicy : Option String
  sandboxPolicy : Option String
  contextWindow : Option Int
  maxOutputTokens : Option Int
deriving Repr, DecidableEq

/-- `createConversationStartEvent` from `agents/types.js`. -/
def createConversationStartEvent (now : Int) (timestamp : Option Int) (sessionId : String)
    (userId : Option String) (provider : Option String) (model : Option String)
    (approvalPolicy sandboxPolicy : Option String)
    (contextWindow maxOutputTokens : Option Int) : ConversationStartEvent :=
  { timestamp := timestamp.getD now
    sessionId
    userId
    provider := jsOrS provider "unknown"
    model
    approvalPolicy
    sandboxPolicy
    contextWindow
    maxOutputTokens }

/-- A normalized UserPrompt event. -/
structure UserPromptEvent where
  timestamp : Int
  sessionId : String
  userId : Option String
  prompt : String
  promptLength : Int
deriving Repr, DecidableEq

/-- `createUserPromptEvent` from `agents/types.js`. -/
def createUserPromptEvent (now : Int) (timestamp : Option Int) (sessionId : String)
    (userId : Option String) (prompt : Option String) (promptLength : Option Int) :
    UserPromptEvent :=
  { timestamp := timestamp.getD now
    sessionId
    userId
    prompt := jsOrS prompt ""
    promptLength := promptLength.getD 0 }

/-- A normalized ApiRequest event. -/
structure ApiRequestEvent where
  timestamp : Int
  sessionId : String
  model : String
  durationMs : Int
  statusCode : Option Int
  attempt : Int
  success : Bool
  requestId : Option String
deriving Repr, DecidableEq

/-- `createApiRequestEvent` from `agents/types.js`. -/
def createApiRequestEvent (now : Int) (timestamp : Option Int) (sessionId : String)
    (model : Option String) (durationMs : Option Int) (statusCode : Option Int)
    (attempt : Option Int) (success : Option Bool) (requestId : Option String) :
    ApiRequestEvent :=
  { timestamp := timestamp.getD now
    sessionId
    model := jsOrS model "unknown"
    durationMs := durationMs.getD 0
    statusCode
    attempt := match attempt with
      | some n => if n = 0 then 1 else n
      | none => 1
    success := success ≠ some false
    requestId }

/-- A normalized ApiError event. -/
structure ApiErrorEvent where
  timestamp : Int
  sessionId : String
  model : String
  errorMessage : String
  statusCode : Int
  durationMs : Int
  attempt : Int
  requestId : Option String
deriving Repr, DecidableEq

/-- `createApiErrorEvent` from `agents/types.js`. -/
def createApiErrorEvent (now : Int) (timestamp : Option Int) (sessionId : String)
    (model : Option String) (errorMessage : Option String) (statusCode : Option Int)
    (durationMs : Option Int) (attempt : Option Int) (requestId : Option String) :
    ApiErrorEvent :=
  { timestamp := timestamp.getD now
    sessionId
    model := jsOrS model "unknown"
    errorMessage := jsOrS errorMessage "Unknown error"
    statusCode := statusCode.getD 0
    durationMs := durationMs.getD 0
    attempt := match attempt with
      | some n => if n = 0 then 1 else n
      | none => 1
    requestId }

/-- A normalized ToolDecision event. -/
structure ToolDecisionEvent where
  timestamp : Int
  sessionId : String
  toolName : String
  callId : Option String
  decision : String
  source : String
  isApproved : Bool
deriving Repr, DecidableEq

/-- `createToolDecisionEvent` from `agents/types.js`; `isApproved` is
computed from the raw (pre-default) decision parameter. -/
def createToolDecisionEvent (now : Int) (timestamp : Option Int) (sessionId : String)
    (toolName : Option String) (callId : Option String) (decision : Option String)
    (source : Option String) : ToolDecisionEvent :=
  { timestamp := timestamp.getD now
    sessionId
    toolName := jsOrS toolName "unknown"
    callId
    decision := jsOrS decision "unknown"
    source := jsOrS source "unknown"
    isApproved := decision = some "approved" || decision = some "approved_for_session" ||
      decision = some "accept" }

/-- A normalized ToolResult event (the free-form `arguments` payload is
not tracked; it is only echoed into sink payloads). -/
structure ToolResultEvent where
  timestamp : Int
  sessionId : String
  toolName : String
  callId : Option String
  success : Bool
  durationMs : Int
  output : Option String
  error : Option String
deriving Repr, DecidableEq

/-- `createToolResultEvent` from `agents/types.js`. -/
def createToolResultEvent (now : Int) (timestamp : Option Int) (sessionId : String)
    (toolName : Option String) (callId : Option String) (success : Option Bool)
    (durationMs : Option Int) (output error : Option String) : ToolResultEvent :=
  { timestamp := timestamp.getD now
    sessionId
    toolName := jsOrS toolName "unknown"
    callId
    success := success ≠ some false
    durationMs := durationMs.getD 0
    output
    error }

/-- A normalized FileOperation event. -/
structure FileOperationEvent where
  timestamp : Int
  sessionId : String
  toolName : String
  operation : String
  lines : Int
deriving Repr, DecidableEq

/-- `createFileOperationEvent` from `agents/types.js`. -/
def createFileOperationEvent (now : Int) (timestamp : Option Int) (sessionId : String)
    (toolName : Option String) (operation : Option String) (lines : Option Int) :
    FileOperationEvent :=
  { timestamp := timestamp.getD now
    sessionId
    toolName := jsOrS toolName "file"
    operation := jsOrS operation "unknown"
    lines := lines.getD 0 }

/-- A normalized AgentLifecycle event. -/
structure AgentLifecycleEvent where
  timestamp : Int
  sessionId : String
  agentName : String
  lifecycle : String
  durationMs : Int
  turns : Int
  terminationReason : Option String
deriving Repr, DecidableEq

/-- `createAgentLifecycleEvent` from `agents/types.js`. -/
def createAgentLifecycleEvent (now : Int) (timestamp : Option Int) (sessionId : String)
    (agentName : Option String) (lifecycle : Option String) (durationMs : Option Int)
    (turns : Option Int) (terminationReason : Option String) : AgentLifecycleEvent :=
  { timestamp := timestamp.getD now
    sessionId
    agentName := jsOrS agentName "default"
    lifecycle := jsOrS lifecycle "unknown"
    durationMs := durationMs.getD 0
    turns := turns.getD 0
    terminationReason }

/-- The closed set of normalized event variants consumed by the sink;
`misc` covers the raw pass-through objects the Gemini agent returns for
its miscellaneous events (which the sink dispatcher ignores). -/
inductive NEvent where
  | conversationStart (e : ConversationStartEvent)
  | userPrompt (e : UserPromptEvent)
  | apiRequest (e : ApiRequestEvent)
  | apiError (e : ApiErrorEvent)
  | generation (e : GenerationEvent)
  | toolDecision (e : ToolDecisionEvent)
  | toolResult (e : ToolResultEvent)
  | fileOperation (e : FileOperationEvent)
  | agentLifecycle (e : AgentLifecycleEvent)
  | misc (eventName : String) (timestamp : Int) (sessionId : String)
deriving Repr, DecidableEq

end Telemetry

namespace Telemetry

/-! ### Session state (`sessionHandler.js` constructor fields used by the
modeled code paths) -/

/-- One entry of `session.toolSequence` (its free-form `arguments`/
`parameters` payload is not tracked). -/
structure ToolEntry where
  name : String
  callId : Option String := none
  success : Bool
  duration : Int
  timestamp : Int
  error : Option String := none
deriving Repr, DecidableEq

/-- One entry of `session.toolDecisions`. -/
structure DecisionEntry where
  tool : String
  callId : Option String
  decision : String
  source : String
  timestamp : Int
deriving Repr, DecidableEq

/-- Running per-kind token totals (`session.tokenBreakdown`; the lazy JS
initialization is equivalent to all-zero defaults). -/
structure TokenBreakdown where
  input : Int := 0
  output : Int := 0
  cached : Int := 0
  reasoning : Int := 0
  tool : Int := 0
deriving Repr, DecidableEq

/-- The mutable per-session state. `hasLangfuse` models the truthiness of
`session.langfuse` (the server always passes the SDK client in);
`cfgTraceName`/`cfgSessionId`/`cfgUserId` model the corresponding
`session.langfuseConfig` fields; `metaUserId` models
`session.metadata.userId` (always a nonempty string). -/
structure Session where
  sessionId : String
  hasLangfuse : Bool := true
  createdAt : Int
  lastActivity : Int
  currentTrace : Option Nat := none
  currentSpan : Option Nat := none
  toolSequence : List ToolEntry := []
  conversationStartTime : Option Int := none
  totalCost : ℚ := 0
  totalTokens : Int := 0
  apiCallCount : Int := 0
  toolCallCount : Int := 0
  conversationCount : Int := 0
  linesAdded : Int := 0
  linesRemoved : Int := 0
  latApi : List Int := []
  latTool : List Int := []
  latConv : List Int := []
  tokenBreakdown : TokenBreakdown := {}
  toolDecisions : List DecisionEntry := []
  defaultModel : Option String := none
  source : Option String := none
  userEmail : Option String := none
  metaUserId : String := "unknown"
  cfgTraceName : Option String := none
  cfgSessionId : Option String := none
  cfgUserId : Option String := none
deriving Repr, DecidableEq

/-- `new SessionHandler(sessionId, resourceAttributes, langfuse)` with the
resource-attribute dependent metadata summarized by defaults (the
constructor's throw on an empty session id cannot fire on the call sites
modeled here, which always pass a truthy id). -/
def mkSession (sid : String) (now : Int) : Session :=
  { sessionId := sid, createdAt := now, lastActivity := now }

/-- The statistics block returned by `calculatePercentiles`. -/
structure PercStats where
  count : Nat
  minV : Int
  maxV : Int
  avg : Int
  p50 : Int
  p95 : Int
  p99 : Int
deriving Repr, DecidableEq

/-- `calculatePercentiles` (the closure defined inside `finalize`):
`null` for a missing or empty list; otherwise count/min/max, the rounded
mean, and the ascending-sorted elements at indices
`floor(n*0.5)`, `floor(n*0.95)`, `floor(n*0.99)`. -/
def calculatePercentiles (data : Option (List Int)) : Option PercStats :=
  match data with
  | none => none
  | some l =>
    if l.isEmpty then none
    else
      let sorted := List.insertionSort (· ≤ ·) l
      some
        { count := l.length
          minV := sorted.headD 0
          maxV := sorted.getLastD 0
          avg := jsRound ((l.sum : ℚ) / (l.length : ℚ))
          p50 := sorted.getD (l.length * 50 / 100) 0
          p95 := sorted.getD (l.length * 95 / 100) 0
          p99 := sorted.getD (l.length * 99 / 100) 0 }

/-- The three percentile blocks embedded in the session-summary trace
payload (api / tool / conversation). -/
structure PerfBlock where
  api : Option PercStats
  tool : Option PercStats
  conv : Option PercStats
deriving Repr, DecidableEq

/-! ### The external Langfuse sink, modeled as a call log -/

/-- One call issued to the Langfuse SDK. -/
inductive SinkCall where
  | trace (name : String) (sessionId : String) (perf : Option PerfBlock)
  | traceUpdate (id : Nat)
  | generation (name : String) (traceId : Option Nat)
  | event (name : String) (traceId : Nat)
  | spanEnd (id : Nat)
  | score (traceId : Nat) (name : String) (value : Int)
  | flush
deriving Repr, DecidableEq

/-- Sink-side state: the calls performed so far and a fresh-id counter for
`trace()`/`generation()` handles. -/
structure SinkState where
  log : List SinkCall := []
  nextId : Nat := 0
deriving Repr, DecidableEq

/-- Which sink calls throw. This quantifies over the failure modes of the
external SDK. -/
abbrev SinkBehavior := SinkCall → Bool

/-- The behavior of a healthy sink: no call throws. -/
def noThrow : SinkBehavior := fun _ => false

/-- Issue one sink call: either it throws (yielding the unchanged sink
state as the exception payload) or it is appended to the log and returns
a fresh handle id. -/
def sinkInvoke (b : SinkBehavior) (c : SinkCall) (k : SinkState) :
    Except SinkState (SinkState × Nat) :=
  if b c then .error k
  else .ok ({ log := k.log ++ [c], nextId := k.nextId + 1 }, k.nextId)

/-! ### Agent registry (`agents/registry.js`): Claude, Codex, Gemini -/

/-- The agents registered in `registry.js` (`AGENTS = [ClaudeAgent,
CodexAgent, GeminiAgent]`), in registration order. -/
inductive AgentKind where
  | claude
  | codex
  | gemini
deriving Repr, DecidableEq

/-- `static get name()` of each agent class. -/
def AgentKind.agentName : AgentKind → String
  | .claude => "claude-code"
  | .codex => "codex"
  | .gemini => "gemini"

/-- `static get provider()` of each agent class. -/
def AgentKind.provider : AgentKind → String
  | .claude => "anthropic"
  | .codex => "openai"
  | .gemini => "google"

/-- `ClaudeAgent.canHandle`. -/
def claudeCanHandle (eventName : Option String) : Bool :=
  match eventName with
  | none => false
  | some e => strStartsWith e "claude_code."

/-- `CodexAgent.canHandle`. -/
def codexCanHandle (eventName : Option String) : Bool :=
  match eventName with
  | none => false
  | some e => strStartsWith e "codex."

/-- `GeminiAgent.canHandle`: both `gemini_cli.*` events and `gen_ai.*`
OTEL events. -/
def geminiCanHandle (eventName : Option String) : Bool :=
  match eventName with
  | none => false
  | some e => strStartsWith e "gemini_cli." || strStartsWith e "gen_ai."

/-- `canHandle` dispatched over the agent kind. -/
def AgentKind.canHandle : AgentKind → Option String → Bool
  | .claude => claudeCanHandle
  | .codex => codexCanHandle
  | .gemini => geminiCanHandle

end Telemetry

namespace Telemetry

/-! ### Log records and per-agent event translation -/

/-- One OTLP log record as read by the handlers: the event name in
`body.stringValue`, the nano timestamp and the attribute list (each
`none` models an absent field). -/
structure LogRecord where
  body : Option String := none
  timeUnixNano : Option Int := none
  attributes : Option (List KeyValue) := none

/-- The per-record timestamp: `timeUnixNano / 1e6` milliseconds, else the
current time (timestamps are modeled as epoch milliseconds). -/
def recordTimestamp (now : Int) (lr : LogRecord) : Int :=
  match lr.timeUnixNano with
  | some n => n / 1000000
  | none => now

/-- `attrs.model || session.defaultModel || fallback`. -/
def modelOr (attrs : Attrs) (s : Session) (fallback : String) : String :=
  jsOrS (jsOrSOpt (tGet (aGet attrs "model")) s.defaultModel) fallback

/-- `ClaudeAgent.processEvent`. -/
def claudeProcessEvent (now : Int) (lr : LogRecord) (attrs : Attrs) (s : Session) :
    Option NEvent :=
  let ts := recordTimestamp now lr
  match lr.body with
  | some "claude_code.user_prompt" =>
    some (.userPrompt (createUserPromptEvent now (some ts) s.sessionId
      (jsOrSOpt (tGet (aGet attrs "user.email")) (jsOrSOpt s.userEmail (some s.metaUserId)))
      (some (strOr (orN (aGet attrs "prompt") (aGet attrs "user.prompt")) ""))
      (parseIntAttr (orN (aGet attrs "prompt_length") (aGet attrs "prompt.length")) "0")))
  | some "claude_code.api_request" =>
    let inputTokens := parseIntAttr (orN (aGet attrs "input_tokens") (aGet attrs "tokens.input")) "0"
    let outputTokens := parseIntAttr (orN (aGet attrs "output_tokens") (aGet attrs "tokens.output")) "0"
    let cacheReadTokens :=
      parseIntAttr (orN (aGet attrs "cache_read_tokens") (aGet attrs "cache.read_tokens")) "0"
    let cacheCreationTokens :=
      parseIntAttr (orN (aGet attrs "cache_creation_tokens") (aGet attrs "cache.creation_tokens")) "0"
    -- "Use cost provided by the agent - don't calculate"
    let cost := parseFloatAttr
      (orN (orN (aGet attrs "cost_usd") (aGet attrs "cost")) (aGet attrs "cost.usd")) "0"
    some (.generation (createGenerationEvent now
      { timestamp := some ts
        sessionId := s.sessionId
        model := some (jsOrS (tGet (orN (aGet attrs "model") (aGet attrs "model.name"))) "unknown")
        durationMs := parseIntAttr (orN (aGet attrs "duration_ms") (aGet attrs "duration")) "0"
        inputTokens
        outputTokens
        cachedTokens := addNaN cacheReadTokens cacheCreationTokens
        cost
        requestId := optStrField (orN (aGet attrs "request_id") (aGet attrs "request.id")) }))
  | some "claude_code.api_error" =>
    some (.apiError (createApiErrorEvent now (some ts) s.sessionId
      (some (strOr (aGet attrs "model") "unknown"))
      (some (strOr (orN (orN (aGet attrs "error_message") (aGet attrs "error"))
        (aGet attrs "message")) "Unknown error"))
      (parseIntAttr (orN (aGet attrs "status_code") (aGet attrs "status")) "0")
      (parseIntAttr (orN (aGet attrs "duration_ms") (aGet attrs "duration")) "0")
      none
      (optStrField (orN (aGet attrs "request_id") (aGet attrs "request.id")))))
  | some "claude_code.tool_result" =>
    some (.toolResult (createToolResultEvent now (some ts) s.sessionId
      (some (strOr (orN (orN (aGet attrs "tool_name") (aGet attrs "tool")) (aGet attrs "name"))
        "unknown"))
      none
      (some (isTrueLike (aGet attrs "success")))
      (parseIntAttr (orN (aGet attrs "duration_ms") (aGet attrs "duration")) "0")
      none
      (tGet (aGet attrs "error"))))
  | some "claude_code.tool_decision" =>
    some (.toolDecision (createToolDecisionEvent now (some ts) s.sessionId
      (some (strOr (orN (aGet attrs "tool_name") (aGet attrs "tool")) "unknown"))
      none
      (tGet (aGet attrs "decision"))
      (tGet (aGet attrs "source"))))
  | _ => none

/-- `CodexAgent._processSseEvent` (from the registry agent in
`codexAgent.js`): an error-bearing record becomes an ApiError, otherwise
a Generation whose cost is the parsed `cost_usd`/`cost` attribute. -/
def codexProcessSseEvent (now ts : Int) (attrs : Attrs) (s : Session) : NEvent :=
  let durationMs := parseIntAttr (aGet attrs "duration_ms") "0"
  let errorMessage := aGet attrs "error.message"
  let inputTokens := parseIntAttr (aGet attrs "input_token_count") "0"
  let outputTokens := parseIntAttr (aGet attrs "output_token_count") "0"
  let cachedTokens := parseIntAttr (aGet attrs "cached_token_count") "0"
  let reasoningTokens := parseIntAttr (aGet attrs "reasoning_token_count") "0"
  let toolTokens := parseIntAttr (aGet attrs "tool_token_count") "0"
  let model := modelOr attrs s "gpt-4o"
  -- "Use cost provided by the agent - don't calculate"
  let cost := parseFloatAttr (orN (aGet attrs "cost_usd") (aGet attrs "cost")) "0"
  if truthyN errorMessage then
    .apiError (createApiErrorEvent now (some ts) s.sessionId (some model)
      (tGet errorMessage) none durationMs none none)
  else
    .generation (createGenerationEvent now
      { timestamp := some ts
        sessionId := s.sessionId
        model := some model
        durationMs
        inputTokens
        outputTokens
        cachedTokens
        reasoningTokens
        toolTokens
        cost })

/-- `GeminiAgent.processEvent`. -/
def geminiProcessEvent (now : Int) (lr : LogRecord) (attrs : Attrs) (s : Session) :
    Option NEvent :=
  let ts := recordTimestamp now lr
  let geminiUserId :=
    jsOrSOpt (tGet (aGet attrs "user.email")) (jsOrSOpt s.userEmail (some s.metaUserId))
  match lr.body with
  | some "gemini_cli.config" =>
    let sandboxEnabled := isTrueLike (aGet attrs "sandbox_enabled")
    some (.conversationStart (createConversationStartEvent now (some ts) s.sessionId
      geminiUserId
      (some "google")
      (tGet (aGet attrs "model"))
      (some (strOr (aGet attrs "approval_mode") "suggest"))
      (some (if sandboxEnabled then "enabled" else "disabled"))
      none none))
  | some "gemini_cli.user_prompt" =>
    some (.userPrompt (createUserPromptEvent now (some ts) s.sessionId
      geminiUserId
      (some (strOr (aGet attrs "prompt") ""))
      (parseIntAttr (aGet attrs "prompt_length") "0")))
  | some "gemini_cli.api_request" =>
    some (.apiRequest (createApiRequestEvent now (some ts) s.sessionId
      (some (modelOr attrs s "unknown")) none none none none
      (optStrField (aGet attrs "prompt_id"))))
  | some "gemini_cli.api_response" =>
    some (.generation (createGenerationEvent now
      { timestamp := some ts
        sessionId := s.sessionId
        model := some (modelOr attrs s "unknown")
        durationMs := parseIntAttr (aGet attrs "duration_ms") "0"
        inputTokens := parseIntAttr (orN (aGet attrs "input_token_count") (aGet attrs "input_tokens")) "0"
        outputTokens := parseIntAttr (orN (aGet attrs "output_token_count") (aGet attrs "output_tokens")) "0"
        cachedTokens := parseIntAttr
          (orN (aGet attrs "cached_content_token_count") (aGet attrs "cached_tokens")) "0"
        reasoningTokens := parseIntAttr (aGet attrs "thoughts_token_count") "0"
        toolTokens := parseIntAttr (aGet attrs "tool_token_count") "0"
        cost := parseFloatAttr (orN (aGet attrs "cost_usd") (aGet attrs "cost")) "0" }))
  | some "gemini_cli.api_error" =>
    some (.apiError (createApiErrorEvent now (some ts) s.sessionId
      (some (modelOr attrs s "unknown"))
      (some (strOr (orN (aGet attrs "error") (aGet attrs "error_message")) "Unknown error"))
      (parseIntAttr (aGet attrs "status_code") "0")
      (parseIntAttr (aGet attrs "duration_ms") "0")
      none none))
  | some "gemini_cli.tool_call" =>
    some (.toolResult (createToolResultEvent now (some ts) s.sessionId
      (some (strOr (orN (aGet attrs "function_name") (aGet attrs "tool_name")) "unknown"))
      none
      (some (isTrueLike (aGet attrs "success")))
      (parseIntAttr (aGet attrs "duration_ms") "0")
      none
      (optStrField (aGet attrs "error"))))
  | some "gemini_cli.file_operation" =>
    some (.fileOperation (createFileOperationEvent now (some ts) s.sessionId
      (tGet (aGet attrs "tool_name"))
      (tGet (aGet attrs "operation"))
      (parseIntAttr (aGet attrs "lines") "0")))
  | some "gemini_cli.agent.start" =>
    some (.agentLifecycle (createAgentLifecycleEvent now (some ts) s.sessionId
      (tGet (aGet attrs "agent_name")) (some "start") none none none))
  | some "gemini_cli.agent.finish" =>
    some (.agentLifecycle (createAgentLifecycleEvent now (some ts) s.sessionId
      (tGet (aGet attrs "agent_name")) (some "finish")
      (parseIntAttr (orN (aGet attrs "duration_ms") (aGet attrs "duration")) "0")
      (parseIntAttr (aGet attrs "turns") "0")
      (some (strOr (aGet attrs "termination_reason") "completed"))))
  | some "gen_ai.client.inference.operation.details" =>
    some (.generation (createGenerationEvent now
      { timestamp := some ts
        sessionId := s.sessionId
        model := some (jsOrS
          (jsOrSOpt (tGet (orN (aGet attrs "model") (aGet attrs "gen_ai.model"))) s.defaultModel)
          "unknown")
        inputTokens := parseIntAttr
          (orN (aGet attrs "input_token_count") (aGet attrs "gen_ai.input_tokens")) "0"
        outputTokens := parseIntAttr
          (orN (aGet attrs "output_token_count") (aGet attrs "gen_ai.output_tokens")) "0" }))
  | some "gemini_cli.slash_command" => some (.misc "gemini_cli.slash_command" ts s.sessionId)
  | some "gemini_cli.model_routing" => some (.misc "gemini_cli.model_routing" ts s.sessionId)
  | some "gemini_cli.chat_compression" => some (.misc "gemini_cli.chat_compression" ts s.sessionId)
  | some "gemini_cli.conversation_finished" =>
    some (.misc "gemini_cli.conversation_finished" ts s.sessionId)
  | _ => none

end Telemetry

namespace Telemetry

/-! ### Legacy Codex cost table (`codexEventProcessor.js`) -/

/-- `s.includes(sub)` on character lists. -/
def charsIncl (sub : List Char) : List Char → Bool
  | [] => sub.isEmpty
  | c :: t => sub.isPrefixOf (c :: t) || charsIncl sub t

/-- JS `s.includes(sub)`. -/
def strIncludes (s sub : String) : Bool :=
  charsIncl sub.data s.data

/-- One `{input, output, cached}` USD-per-million-token pricing row. -/
structure PricingRow where
  inputRate : ℚ
  outputRate : ℚ
  cachedRate : ℚ
deriving Repr, DecidableEq

/-- The `TOKEN_PRICING` table of `codexEventProcessor.js`, in insertion
order and without its `default` row. -/
def TOKEN_PRICING : List (String × PricingRow) :=
  [("gpt-4o", ⟨5/2, 10, 5/4⟩),
   ("gpt-4o-mini", ⟨3/20, 3/5, 3/40⟩),
   ("gpt-4-turbo", ⟨10, 30, 5⟩),
   ("gpt-4", ⟨30, 60, 15⟩),
   ("gpt-3.5-turbo", ⟨1/2, 3/2, 1/4⟩),
   ("o1", ⟨15, 60, 15/2⟩),
   ("o1-mini", ⟨3, 12, 3/2⟩),
   ("o1-preview", ⟨15, 60, 15/2⟩),
   ("o3-mini", ⟨11/10, 22/5, 11/20⟩)]

/-- The `default` pricing row. -/
def defaultPricing : PricingRow := ⟨5, 15, 5/2⟩

/-- `calculateCost` from `codexEventProcessor.js`: first pricing row whose
key is a (case-insensitive) substring of the model name, else the default
row; reasoning tokens are billed at the output rate. -/
def calculateCost (model : Option String) (inputTokens outputTokens : ℚ)
    (cachedTokens reasoningTokens : ℚ) : ℚ :=
  let modelLower := strToLower (model.getD "")
  let pricing := ((TOKEN_PRICING.find? (fun p => strIncludes modelLower p.1)).map
    Prod.snd).getD defaultPricing
  (inputTokens / 1000000) * pricing.inputRate +
    ((outputTokens + reasoningTokens) / 1000000) * pricing.outputRate +
    (cachedTokens / 1000000) * pricing.cachedRate

/-! ### Metadata normalization (`langfuseHandler.js`) -/

/-- JS metadata values handed to `normalizeMetadata`; `mNull` covers both
`null` and `undefined`. -/
inductive MetaVal where
  | mNull
  | mStr (s : String)
  | mInt (n : Int)
  | mBool (b : Bool)
  | mArr (l : List MetaVal)
  | mObj (l : List (String × MetaVal))

mutual
/-- JS `String(value)` on metadata values (the object case is unreachable
from `normalizeMetadata`, which recurses into objects instead). -/
def mvToStr : MetaVal → String
  | .mNull => "null"
  | .mStr s => s
  | .mInt n => toString n
  | .mBool b => cond b "true" "false"
  | .mArr l => String.intercalate "," (mvToStrArr l)
  | .mObj _ => "[object Object]"

/-- Elementwise JS stringification of a metadata array (`null` elements
stringify to the empty string). -/
def mvToStrArr : List MetaVal → List String
  | [] => []
  | .mNull :: rest => "" :: mvToStrArr rest
  | v :: rest => mvToStr v :: mvToStrArr rest
end

/-- The 200-character truncation of `normalizeMetadata`: strings longer
than 200 characters are cut to their first 197 characters plus `...`. -/
def jsTruncate (s : String) : String :=
  if s.length > 200 then strTake s 197 ++ "..." else s

/-- `normalizeMetadata(metadata, prefix)` from `langfuseHandler.js`:
recursively flatten nested (non-array) objects into dot-joined keys, drop
`null`/`undefined` entries, stringify every remaining value and truncate
past 200 characters. -/
def normalizeMetadata (pref : String) : List (String × MetaVal) → List (String × String)
  | [] => []
  | (k, v) :: rest =>
    let fullKey := if pref.isEmpty then k else pref ++ "." ++ k
    (match v with
     | .mNull => []
     | .mObj o => normalizeMetadata fullKey o
     | other => [(fullKey, jsTruncate (mvToStr other))]) ++ normalizeMetadata pref rest
termination_by l => sizeOf l
decreasing_by
  all_goals simp_all
  all_goals omega

end Telemetry

namespace Telemetry

/-! ### The normalized-event sink (`langfuseHandler.js`) -/

/-- Joint session/sink state threaded through the handlers. -/
abbrev St := Session × SinkState

/-- The trace name chosen by `buildTraceOptions` via its `overrides.name`:
`langfuseConfig.traceName` when set, else
`{agentName || 'ai'}-conversation-{n}`. -/
def conversationTraceName (s : Session) (ag : Option AgentKind) : String :=
  jsOrS s.cfgTraceName
    ((match ag with | some a => a.agentName | none => "ai") ++ "-conversation-" ++
      toString s.conversationCount)

/-- The `sessionId` field sent on every trace:
`langfuseConfig.sessionId || session.sessionId`. -/
def traceSessionId (s : Session) : String :=
  jsOrS s.cfgSessionId s.sessionId

/-- `handleConversationStart`: always starts a new conversation —
increments the count, records the start time, clears the tool sequence,
remembers the configured model and (when the sink client is present)
opens a fresh conversation trace. -/
def handleConversationStart (b : SinkBehavior) (now : Int) (e : ConversationStartEvent)
    (ag : Option AgentKind) (s : Session) (k : SinkState) : Except St St :=
  let s := { s with
    conversationCount := s.conversationCount + 1
    conversationStartTime := some now
    toolSequence := [] }
  let s := match e.model with
    | some m => if m.isEmpty then s else { s with defaultModel := some m }
    | none => s
  if s.hasLangfuse then
    match sinkInvoke b (.trace (conversationTraceName s ag) (traceSessionId s) none) k with
    | .error k' => .error (s, k')
    | .ok (k', id) => .ok ({ s with currentTrace := some id }, k')
  else .ok (s, k)

/-- `handleUserPrompt`: starts a new conversation when no trace is open,
otherwise updates the open trace with the prompt. -/
def handleUserPrompt (b : SinkBehavior) (now : Int) (_e : UserPromptEvent)
    (ag : Option AgentKind) (s : Session) (k : SinkState) : Except St St :=
  match s.currentTrace with
  | none =>
    if s.hasLangfuse then
      let s := { s with
        conversationCount := s.conversationCount + 1
        conversationStartTime := some now
        toolSequence := [] }
      match sinkInvoke b (.trace (conversationTraceName s ag) (traceSessionId s) none) k with
      | .error k' => .error (s, k')
      | .ok (k', id) => .ok ({ s with currentTrace := some id }, k')
    else .ok (s, k)
  | some tid =>
    match sinkInvoke b (.traceUpdate tid) k with
    | .error k' => .error (s, k')
    | .ok (k', _) => .ok (s, k')

/-- The routing/generation model-type heuristic of `handleGeneration`. -/
def modelTypeOf (model : String) : String :=
  if strIncludes model "haiku" || strIncludes model "mini" then "routing" else "generation"

/-- `handleGeneration`: accumulate token/cost totals and the per-kind
breakdown, record latency, lazily open a conversation trace when none
exists (without clearing the tool sequence), and emit a generation
observation. -/
def handleGeneration (b : SinkBehavior) (now : Int) (e : GenerationEvent)
    (ag : Option AgentKind) (s : Session) (k : SinkState) : Except St St :=
  let s := { s with
    totalTokens := s.totalTokens + e.tokens.total
    totalCost := s.totalCost + e.cost
    apiCallCount := s.apiCallCount + 1
    tokenBreakdown :=
      { input := s.tokenBreakdown.input + e.tokens.input
        output := s.tokenBreakdown.output + e.tokens.output
        cached := s.tokenBreakdown.cached + e.tokens.cached
        reasoning := s.tokenBreakdown.reasoning + e.tokens.reasoning
        tool := s.tokenBreakdown.tool + e.tokens.tool } }
  let s := if e.durationMs > 0 then { s with latApi := s.latApi ++ [e.durationMs] } else s
  let opened : Except St St :=
    match s.currentTrace with
    | none =>
      if s.hasLangfuse then
        let s := { s with
          conversationCount := s.conversationCount + 1
          conversationStartTime := some now }
        match sinkInvoke b (.trace (conversationTraceName s ag) (traceSessionId s) none) k with
        | .error k' => .error (s, k')
        | .ok (k', id) => .ok ({ s with currentTrace := some id }, k')
      else .ok (s, k)
    | some _ => .ok (s, k)
  match opened with
  | .error r => .error r
  | .ok (s, k) =>
    match s.currentTrace with
    | some tid =>
      if s.hasLangfuse then
        match sinkInvoke b (.generation (modelTypeOf e.model ++ "-" ++ e.model) (some tid)) k with
        | .error k' => .error (s, k')
        | .ok (k', id) => .ok ({ s with currentSpan := some id }, k')
      else .ok (s, k)
    | none => .ok (s, k)

end Telemetry

namespace Telemetry

/-! ### Session finalization (`sessionHandler.js`) -/

/-- The quality-score computation of `finalize`. -/
def qualityScoreOf (s : Session) (apiPerc : Option PercStats) : Int :=
  let cacheHitRate : ℚ :=
    if s.totalTokens > 0 then ((s.latApi.sum : ℚ)) / (s.totalTokens : ℚ) else 0
  let avgResponseTime : Int := match apiPerc with
    | some p => p.avg
    | none => 0
  let toolSuccessRate : ℚ :=
    if s.toolSequence.length > 0 then
      ((s.toolSequence.filter (·.success)).length : ℚ) / (s.toolSequence.length : ℚ)
    else 1
  min 100 (jsRound (cacheHitRate * 20 + toolSuccessRate * 40 +
    (if avgResponseTime < 1000 then 40 else 20)))

/-- The efficiency-score computation of `finalize` (emitted only when
`totalCost > 0`). -/
def efficiencyScoreOf (s : Session) : Int :=
  min 100 (jsRound (((s.totalTokens : ℚ) / s.totalCost) / 10))

/-- The body of `finalize` (the contents of its single `try` block): an
exception from any sink call aborts the remaining steps, surfacing the
state mutated so far. -/
def finalizeTry (b : SinkBehavior) (now : Int) (s : Session) (k : SinkState) :
    Except St St :=
  -- close any open span
  let step1 : Except St St :=
    match s.currentSpan with
    | some spanId =>
      match sinkInvoke b (.spanEnd spanId) k with
      | .error k' => .error (s, k')
      | .ok (k', _) => .ok ({ s with currentSpan := none }, k')
    | none => .ok (s, k)
  match step1 with
  | .error r => .error r
  | .ok (s, k) =>
    -- close the open conversation trace and record its duration
    let step2 : Except St St :=
      match s.currentTrace with
      | some tid =>
        match sinkInvoke b (.traceUpdate tid) k with
        | .error k' => .error (s, k')
        | .ok (k', _) =>
          match s.conversationStartTime with
          | some t0 => .ok ({ s with latConv := s.latConv ++ [now - t0] }, k')
          | none => .ok (s, k')
      | none => .ok (s, k)
    match step2 with
    | .error r => .error r
    | .ok (s, k) =>
      let apiPercentiles := calculatePercentiles (some s.latApi)
      let toolPercentiles := calculatePercentiles (some s.latTool)
      let conversationPercentiles := calculatePercentiles (some s.latConv)
      -- the session-summary trace, carrying the three percentile blocks
      match sinkInvoke b (.trace "session-summary" (traceSessionId s)
          (some ⟨apiPercentiles, toolPercentiles, conversationPercentiles⟩)) k with
      | .error k' => .error (s, k')
      | .ok (k', summaryId) =>
        -- quality score
        match sinkInvoke b (.score summaryId "quality" (qualityScoreOf s apiPercentiles)) k' with
        | .error k'' => .error (s, k'')
        | .ok (k'', _) =>
          -- efficiency score, only with a positive total cost
          let step6 : Except SinkState SinkState :=
            if s.totalCost > 0 then
              match sinkInvoke b (.score summaryId "efficiency" (efficiencyScoreOf s)) k'' with
              | .error k3 => .error k3
              | .ok (k3, _) => .ok k3
            else .ok k''
          match step6 with
          | .error k3 => .error (s, k3)
          | .ok k3 =>
            match sinkInvoke b .flush k3 with
            | .error k4 => .error (s, k4)
            | .ok (k4, _) => .ok (s, k4)

/-- `SessionHandler.finalize`: the whole body runs in one `try`; any
exception is caught and logged, so the call always returns. -/
def finalize (b : SinkBehavior) (now : Int) (s : Session) (k : SinkState) : St :=
  match finalizeTry b now s k with
  | .ok r => r
  | .error r => r

/-! ### Session cleanup (`serverHelpers.js`) -/

/-- The live session map, keyed by session id (JS `Map` keys are unique;
insertion order is preserved). -/
abbrev SessMap := List (String × Session)

/-- `sessions.get(id)`. -/
def lookupSess (m : SessMap) (sid : String) : Option Session :=
  (m.find? (fun p => p.1 = sid)).map Prod.snd

/-- `sessions.delete(id)`. -/
def eraseSess (m : SessMap) (sid : String) : SessMap :=
  m.filter (fun p => p.1 ≠ sid)

/-- `cleanupSessions(sessions, timeout)`: collect the ids idle beyond the
timeout, then finalize and remove each one (finalize errors are caught
per-session; `finalize` itself never throws). -/
def cleanupSessions (b : SinkBehavior) (now timeout : Int) (m : SessMap) (k : SinkState) :
    SessMap × SinkState :=
  let sessionsToDelete :=
    (m.filter (fun p => now - p.2.lastActivity > timeout)).map Prod.fst
  sessionsToDelete.foldl
    (fun acc sid =>
      match lookupSess acc.1 sid with
      | none => (eraseSess acc.1 sid, acc.2)
      | some s =>
        let (_, k') := finalize b now s acc.2
        (eraseSess acc.1 sid, k'))
    (m, k)

end Telemetry

namespace Telemetry

/-! ### The `/v1/logs` request handler (`requestHandlers.js`) -/

end Telemetry

namespace Telemetry

/-! ### Observation helpers and concrete example inputs -/

/-- The cost field of a normalized event (0 for variants without one). -/
def NEvent.costOf : NEvent → ℚ
  | .generation e => e.cost
  | _ => 0

/-- Collapse an `Except` over the joint state (the caught result and the
thrown result carry the same state type). -/
def exceptSt (r : Except St St) : St :=
  match r with
  | .ok x => x
  | .error x => x

/-- Number of `trace(...)` calls in a sink log. -/
def traceCount (l : List SinkCall) : Nat :=
  (l.filter (fun c => match c with | .trace _ _ _ => true | _ => false)).length

/-- Number of `session-summary` traces in a sink log. -/
def summaryCount (l : List SinkCall) : Nat :=
  (l.filter (fun c => match c with | .trace n _ _ => n = "session-summary" | _ => false)).length

/-- Number of `score(...)`/`flushAsync()` calls in a sink log. -/
def scoreFlushCount (l : List SinkCall) : Nat :=
  (l.filter (fun c => match c with
    | .score _ _ _ => true
    | .flush => true
    | _ => false)).length

/-- `GeminiAgent.canHandle` as the claim states it: the `gemini_cli.`
prefix or exactly the OTEL semantic-convention event name. This is the
spec-side predicate used for the refinement comparison; the source
accepts the whole `gen_ai.` prefix instead. -/
def claimedGeminiCanHandle (e : String) : Bool :=
  strStartsWith e "gemini_cli." || e = "gen_ai.client.inference.operation.details"

/-- A `codex.sse_event` attribute set carrying an upstream cost of 0.5
USD alongside its token counts. -/
def sseAttrsEx : Attrs :=
  extractAttributesArray (some
    [⟨"conversation.id", .stringValue "c1"⟩,
     ⟨"cost_usd", .stringValue "0.5"⟩,
     ⟨"input_token_count", .stringValue "1000"⟩,
     ⟨"output_token_count", .stringValue "500"⟩,
     ⟨"model", .stringValue "gpt-4o"⟩])

/-- A `claude_code.api_request` record with an upstream cost. -/
def claudeReqRecord : LogRecord :=
  { body := some "claude_code.api_request"
    attributes := some
      [⟨"session.id", .stringValue "s1"⟩,
       ⟨"model", .stringValue "claude-sonnet"⟩,
       ⟨"input_tokens", .stringValue "100"⟩,
       ⟨"output_tokens", .stringValue "200"⟩,
       ⟨"cost_usd", .stringValue "0.0015"⟩] }

/-- A session with one recorded API latency sample and an open trace,
as left behind by a processed conversation. -/
def finSessEx : Session :=
  { mkSession "s1" 0 with
    latApi := [100]
    totalTokens := 300
    totalCost := 0
    lastActivity := 0 }

/-- A session holding a recorded tool entry while no conversation trace
is open. -/
def genSessEx : Session :=
  { mkSession "s1" 0 with
    toolSequence := [{ name := "Read", success := true, duration := 100, timestamp := 0 }] }

/-- A small Generation event (300 total tokens, upstream cost). -/
def genEventEx : GenerationEvent :=
  createGenerationEvent 0
    { sessionId := "s1", model := some "claude-3", inputTokens := some 100,
      outputTokens := some 200, cost := some (3/2000) }

/-- A 250-character string, for exercising the truncation rule. -/
def longStrEx : String := String.mk (List.replicate 250 'x')

/-- A sink whose `trace()` operation throws (an outage of the external
SDK during trace creation). -/
def traceThrows : SinkBehavior :=
  fun c => match c with | .trace _ _ _ => true | _ => false

/-- A sink whose `flushAsync()` operation throws persistently. -/
def flushThrows : SinkBehavior :=
  fun c => match c with | .flush => true | _ => false

end Telemetry

namespace Telemetry

/-! ### Supporting lemmas -/

/-- `jsTruncate` never returns more than 200 characters. -/
theorem jsTruncate_length_le (s : String) : (jsTruncate s).length ≤ 200 := by
  unfold jsTruncate strTake
  split
  · rename_i h
    have h1 : (String.mk (s.data.take 197) ++ "...").length =
        (s.data.take 197).length + 3 := by
      rw [String.length_append]
      rfl
    have h2 : (s.data.take 197).length = 197 := by
      rw [List.length_take]
      have : s.length = s.data.length := rfl
      omega
    omega
  · omega

/-- Truncating a string beyond 200 characters yields exactly 200. -/
theorem jsTruncate_length_eq (s : String) (h : 200 < s.length) :
    (jsTruncate s).length = 200 := by
  unfold jsTruncate strTake
  rw [if_pos h]
  have h1 : (String.mk (s.data.take 197) ++ "...").length =
      (s.data.take 197).length + 3 := by
    rw [String.length_append]; rfl
  have h2 : (s.data.take 197).length = 197 := by
    rw [List.length_take]
    have : s.length = s.data.length := rfl
    omega
  omega

/-- Every value produced by `normalizeMetadata` is at most 200 characters
long. -/
theorem normalizeMetadata_value_le (pref : String) (m : List (String × MetaVal)) :
    ∀ p ∈ normalizeMetadata pref m, p.2.length ≤ 200 := by
  induction pref, m using normalizeMetadata.induct with
  | case1 pref => simp [normalizeMetadata]
  | case2 pref k v rest fullKey ih1 ih2 =>
    intro p hp
    cases v with
    | mNull =>
      simp only [normalizeMetadata, List.nil_append] at hp
      exact ih2 p hp
    | mObj o =>
      simp only [normalizeMetadata] at hp
      rcases List.mem_append.1 hp with h | h
      · exact ih1 p h
      · exact ih2 p h
    | mStr sv =>
      simp only [normalizeMetadata, List.singleton_append] at hp
      rcases List.mem_cons.1 hp with rfl | h
      · exact jsTruncate_length_le _
      · exact ih2 p h
    | mInt n =>
      simp only [normalizeMetadata, List.singleton_append] at hp
      rcases List.mem_cons.1 hp with rfl | h
      · exact jsTruncate_length_le _
      · exact ih2 p h
    | mBool bv =>
      simp only [normalizeMetadata, List.singleton_append] at hp
      rcases List.mem_cons.1 hp with rfl | h
      · exact jsTruncate_length_le _
      · exact ih2 p h
    | mArr lv =>
      simp only [normalizeMetadata, List.singleton_append] at hp
      rcases List.mem_cons.1 hp with rfl | h
      · exact jsTruncate_length_le _
      · exact ih2 p h

end Telemetry

namespace Telemetry

/-! ### Claim theorems -/

/-- C1: for every Generation event produced through
`createGenerationEvent`, `tokens.total` equals
`tokens.input + tokens.output + tokens.cached + tokens.reasoning +
tokens.tool`. -/
theorem generation_tokens_total_is_sum (now : Int) (p : GenParams) :
    (createGenerationEvent now p).tokens.total =
      (createGenerationEvent now p).tokens.input +
      (createGenerationEvent now p).tokens.output +
      (createGenerationEvent now p).tokens.cached +
      (createGenerationEvent now p).tokens.reasoning +
      (createGenerationEvent now p).tokens.tool := rfl

/-- C6: `normalizeMetadata` maps `\x7ba:\x7bb:1\x7d\x7d` to the
dot-flattened `\x7b'a.b':'1'\x7d`, omits null/undefined entries entirely,
truncates any string beyond 200 characters to its first 197 characters
plus `...`, and every value it produces is a string of length at most
200. -/
theorem normalizeMetadata_flattens_and_truncates (pref k : String)
    (m rest : List (String × MetaVal)) (s : String) (hs : 200 < s.length) :
    normalizeMetadata "" [("a", .mObj [("b", .mInt 1)])] = [("a.b", "1")] ∧
    normalizeMetadata pref ((k, .mNull) :: rest) = normalizeMetadata pref rest ∧
    jsTruncate s = strTake s 197 ++ "..." ∧
    (jsTruncate s).length = 200 ∧
    (∀ p ∈ normalizeMetadata pref m, p.2.length ≤ 200) := by
  refine ⟨?_, ?_, ?_, ?_, ?_⟩
  · simp [normalizeMetadata, jsTruncate, mvToStr, strTake]
    decide
  · simp [normalizeMetadata]
  · unfold jsTruncate
    rw [if_pos hs]
  · exact jsTruncate_length_eq s hs
  · exact normalizeMetadata_value_le pref m

/-- Witness for C6 at a 250-character string and concrete metadata. -/
theorem normalizeMetadata_flattens_and_truncates_witness :
    200 < longStrEx.length ∧
    (jsTruncate longStrEx).length = 200 := by
  have h := normalizeMetadata_flattens_and_truncates "p" "k" [] [] longStrEx (by decide)
  exact ⟨by decide, h.2.2.2.1⟩

/-- C9 counterexample: the Gemini agent accepts every `gen_ai.*` event
name, not only the single OTEL semantic-convention name — `gen_ai.custom`
is accepted by the source but rejected by the claimed predicate. -/
theorem gemini_canHandle_counterexample :
    geminiCanHandle (some "gen_ai.custom") = true ∧
    claimedGeminiCanHandle "gen_ai.custom" = false := by decide

/-- C9 (amended): `GeminiAgent.canHandle(e)` is true iff `e` starts with
`gemini_cli.` or starts with `gen_ai.` (so it accepts a strict superset
of the claimed set, which used exact equality with
`gen_ai.client.inference.operation.details`). -/
theorem gemini_canHandle_prefixes (e : String) (h : claimedGeminiCanHandle e = true) :
    geminiCanHandle (some e) = true ∧
    (∀ e2 : String, geminiCanHandle (some e2) =
      (strStartsWith e2 "gemini_cli." || strStartsWith e2 "gen_ai.")) ∧
    geminiCanHandle none = false := by
  refine ⟨?_, fun e2 => rfl, rfl⟩
  simp only [claimedGeminiCanHandle, Bool.or_eq_true] at h
  rcases h with h | h
  · simp [geminiCanHandle, h]
  · have : e = "gen_ai.client.inference.operation.details" := by
      simpa using h
    subst this
    decide

/-- Witness for C9 at the OTEL semantic-convention event name. -/
theorem gemini_canHandle_prefixes_witness :
    claimedGeminiCanHandle "gen_ai.client.inference.operation.details" = true ∧
    geminiCanHandle (some "gen_ai.client.inference.operation.details") = true := by
  have h := gemini_canHandle_prefixes "gen_ai.client.inference.operation.details" (by decide)
  exact ⟨by decide, h.1⟩

end Telemetry

namespace Telemetry

/-- The recursive array resolution is elementwise value extraction. -/
theorem extractValueList_eq_map (vs : List AttrValue) :
    extractValueList vs = vs.map extractAttributeValue := by
  induction vs with
  | nil => rfl
  | cons v t ih => simp [extractValueList, ih]

/-- The recursive kvlist resolution is elementwise value extraction. -/
theorem extractValueKVs_eq_map (kvs : List (String × AttrValue)) :
    extractValueKVs kvs = kvs.map (fun p => (p.1, extractAttributeValue p.2)) := by
  induction kvs with
  | nil => rfl
  | cons p t ih =>
    cases p
    simp [extractValueKVs, ih]

/-- C10: the attribute extractor is total — a missing list yields the
empty mapping, every entry of the list contributes exactly one key (none
is lost to an exception), an unknown/absent value tag resolves to null,
and array/kvlist values are resolved recursively. -/
theorem extractor_never_throws (l : List KeyValue) (a : KeyValue) (ha : a ∈ l)
    (vs : List AttrValue) (kvs : List (String × AttrValue)) :
    extractAttributesArray none = [] ∧
    (extractAttributesArray (some l)).length = l.length ∧
    (extractAttributesArray (some l)).map Prod.fst = l.map KeyValue.key ∧
    (a.key, extractAttributeValue a.value) ∈ extractAttributesArray (some l) ∧
    extractAttributeValue .unknownTag = none ∧
    extractAttributeValue (.arrayValue vs) = some (.arr (vs.map extractAttributeValue)) ∧
    extractAttributeValue (.kvlistValue kvs) =
      some (.nmap (kvs.map (fun p => (p.1, extractAttributeValue p.2)))) := by
  refine ⟨rfl, by simp [extractAttributesArray], ?_, ?_, rfl, ?_, ?_⟩
  · simp [extractAttributesArray, List.map_map]
  · exact List.mem_map_of_mem _ ha
  · rw [extractAttributeValue, extractValueList_eq_map]
  · rw [extractAttributeValue, extractValueKVs_eq_map]

/-- Witness for C10 at a one-entry list with an unknown value tag. -/
theorem extractor_never_throws_witness :
    (⟨"k", .unknownTag⟩ : KeyValue) ∈ ([⟨"k", .unknownTag⟩] : List KeyValue) ∧
    ("k", (none : Option Native)) ∈ extractAttributesArray (some [⟨"k", .unknownTag⟩]) := by
  have h := extractor_never_throws [⟨"k", .unknownTag⟩] ⟨"k", .unknownTag⟩
    (List.mem_singleton.2 rfl) [] []
  exact ⟨List.mem_singleton.2 rfl, h.2.2.2.1⟩

end Telemetry

namespace Telemetry

/-- The head of a sorted list bounds every member from below. -/
theorem sorted_headD_le (l : List Int) (hs : l.Sorted (· ≤ ·)) :
    ∀ x ∈ l, l.headD 0 ≤ x := by
  cases l with
  | nil => intro x hx; cases hx
  | cons a t =>
    intro x hx
    rcases List.mem_cons.1 hx with rfl | hmem
    · simp
    · exact (List.sorted_cons.1 hs).1 x hmem

/-- The head of a nonempty list is a member. -/
theorem headD_mem (l : List Int) (hne : l ≠ []) : l.headD 0 ∈ l := by
  cases l with
  | nil => exact absurd rfl hne
  | cons a t => simp

/-- The defaulted last element of a nonempty list is a member. -/
theorem getLastD_mem : ∀ (l : List Int) (d : Int), l ≠ [] → l.getLastD d ∈ l := by
  intro l
  induction l with
  | nil => intro d h; exact absurd rfl h
  | cons a t ih =>
    intro d _
    rw [List.getLastD_cons]
    by_cases ht : t = []
    · subst ht
      simp
    · exact List.mem_cons_of_mem a (ih a ht)

/-- The defaulted last element of a sorted list bounds every member from
above. -/
theorem sorted_le_getLastD : ∀ (l : List Int) (d : Int), l.Sorted (· ≤ ·) →
    ∀ x ∈ l, x ≤ l.getLastD d := by
  intro l
  induction l with
  | nil => intro d _ x hx; cases hx
  | cons a t ih =>
    intro d hs x hx
    rw [List.getLastD_cons]
    by_cases ht : t = []
    · subst ht
      rcases List.mem_cons.1 hx with rfl | hmem
      · simp
      · cases hmem
    · rcases List.mem_cons.1 hx with rfl | hmem
      · exact (List.sorted_cons.1 hs).1 _ (getLastD_mem t x ht)
      · exact ih a (List.sorted_cons.1 hs).2 x hmem

/-- C8: `calculatePercentiles` returns null for a missing or empty list;
for a nonempty list of n samples it returns the sample count, the least
and greatest samples, the rounded arithmetic mean, and the
ascending-sorted list's elements at indices `n*50/100`, `n*95/100` and
`n*99/100`, each of which is a sample of the list; `finalize` applies it
independently to the api, tool and conversation latency lists, embedding
the three blocks in the session-summary trace. -/
theorem calculatePercentiles_spec (l : List Int) (hne : l ≠ []) :
    calculatePercentiles none = none ∧
    calculatePercentiles (some []) = none ∧
    (∃ st : PercStats, calculatePercentiles (some l) = some st ∧
      st.count = l.length ∧
      st.minV ∈ l ∧ (∀ x ∈ l, st.minV ≤ x) ∧
      st.maxV ∈ l ∧ (∀ x ∈ l, x ≤ st.maxV) ∧
      st.avg = jsRound ((l.sum : ℚ) / (l.length : ℚ)) ∧
      (∃ sorted : List Int, sorted.Perm l ∧ sorted.Sorted (· ≤ ·) ∧
        st.p50 = sorted.getD (l.length * 50 / 100) 0 ∧ st.p50 ∈ l ∧
        st.p95 = sorted.getD (l.length * 95 / 100) 0 ∧ st.p95 ∈ l ∧
        st.p99 = sorted.getD (l.length * 99 / 100) 0 ∧ st.p99 ∈ l)) ∧
    (∀ (s2 : Session) (k2 : SinkState) (now2 : Int), s2.currentTrace = none →
      (SinkCall.trace "session-summary" (traceSessionId s2)
        (some ⟨calculatePercentiles (some s2.latApi), calculatePercentiles (some s2.latTool),
               calculatePercentiles (some s2.latConv)⟩)) ∈
          (finalize noThrow now2 s2 k2).2.log) := by
  refine ⟨rfl, rfl, ?_, ?_⟩
  case refine_2 =>
    intro s2 k2 now2 hct2
    unfold finalize finalizeTry
    rcases hsp : s2.currentSpan with _ | spanId <;>
      by_cases hc : s2.totalCost > 0 <;>
      simp [sinkInvoke, noThrow, hsp, hct2, hc, traceSessionId]
  have hlen : 0 < l.length := List.length_pos.2 hne
  have hperm : (List.insertionSort (· ≤ ·) l).Perm l := List.perm_insertionSort _ l
  have hsort : (List.insertionSort (· ≤ ·) l).Sorted (· ≤ ·) := List.sorted_insertionSort _ l
  have hslen : (List.insertionSort (· ≤ ·) l).length = l.length := hperm.length_eq
  have hmem : ∀ x, x ∈ List.insertionSort (· ≤ ·) l ↔ x ∈ l := fun x => hperm.mem_iff
  have hidx : ∀ r : Nat, r < 100 → l.length * r / 100 < (List.insertionSort (· ≤ ·) l).length := by
    intro r hr
    rw [hslen, Nat.div_lt_iff_lt_mul (by omega : 0 < 100)]
    calc l.length * r ≤ l.length * 99 := Nat.mul_le_mul_left l.length (by omega)
      _ < l.length * 100 := by omega
  have hne2 : List.insertionSort (· ≤ ·) l ≠ [] := by
    intro h
    rw [h] at hslen
    simp at hslen
    omega
  have heval : calculatePercentiles (some l) = some
      { count := l.length
        minV := (List.insertionSort (· ≤ ·) l).headD 0
        maxV := (List.insertionSort (· ≤ ·) l).getLastD 0
        avg := jsRound ((l.sum : ℚ) / (l.length : ℚ))
        p50 := (List.insertionSort (· ≤ ·) l).getD (l.length * 50 / 100) 0
        p95 := (List.insertionSort (· ≤ ·) l).getD (l.length * 95 / 100) 0
        p99 := (List.insertionSort (· ≤ ·) l).getD (l.length * 99 / 100) 0 } := by
    have hfalse : l.isEmpty = false := by simpa using hne
    simp [calculatePercentiles, hfalse]
  refine ⟨_, heval, rfl, ?_, ?_, ?_, ?_, rfl,
    List.insertionSort (· ≤ ·) l, hperm, hsort, rfl, ?_, rfl, ?_, rfl, ?_⟩
  · exact (hmem _).1 (headD_mem _ hne2)
  · intro x hx
    exact sorted_headD_le _ hsort x ((hmem x).2 hx)
  · exact (hmem _).1 (getLastD_mem _ 0 hne2)
  · intro x hx
    exact sorted_le_getLastD _ 0 hsort x ((hmem x).2 hx)
  · rw [List.getD_eq_getElem _ 0 (hidx 50 (by omega))]
    exact (hmem _).1 (List.getElem_mem _)
  · rw [List.getD_eq_getElem _ 0 (hidx 95 (by omega))]
    exact (hmem _).1 (List.getElem_mem _)
  · rw [List.getD_eq_getElem _ 0 (hidx 99 (by omega))]
    exact (hmem _).1 (List.getElem_mem _)

/-- Witness for C8 at the sample list `[3, 1, 2]`. -/
theorem calculatePercentiles_spec_witness :
    ([3, 1, 2] : List Int) ≠ [] ∧
    ((calculatePercentiles (some ([3, 1, 2] : List Int))).map PercStats.count) = some 3 := by
  have h := calculatePercentiles_spec [3, 1, 2] (by decide)
  rcases h.2.2.1 with ⟨st, hst, hcount, -⟩
  refine ⟨by decide, ?_⟩
  rw [hst]
  simp [hcount]

end Telemetry

namespace Telemetry

/-- C2 counterexample: the registry Codex agent does **not** derive the
Generation cost from the price table — on a `codex.sse_event` with
`cost_usd` 0.5 and gpt-4o token counts it emits the parsed 0.5, while the
price-table derivation of the same tokens would be 0.0075. -/
theorem codex_cost_counterexample :
    (codexProcessSseEvent 0 0 sseAttrsEx (mkSession "c1" 0)).costOf = 1/2 ∧
    calculateCost (some "gpt-4o") 1000 500 0 0 = 3/400 ∧
    ((1 : ℚ)/2 ≠ 3/400) := by
  refine ⟨?_, ?_, by norm_num⟩
  · with_unfolding_all rfl
  · with_unfolding_all rfl

/-- C2 (amended): on every Generation-producing path of every registry
agent, the event's cost is never derived from token counts — Codex
(`codex.sse_event`), Claude (`claude_code.api_request`) and Gemini
(`gemini_cli.api_response`) pass the parsed `cost_usd`/`cost` attribute
through verbatim, and Gemini's OTEL path
(`gen_ai.client.inference.operation.details`) reads no cost attribute at
all and always emits cost 0; the per-model price table lives only in the
legacy `codexEventProcessor` module, whose `calculateCost` yields 0.0075
for `('gpt-4o', 1000, 500, 0, 0)` and 20 for
`('unknown-model', 1e6, 1e6, 0, 0)` via case-insensitive substring match
with reasoning billed at the output rate. -/
theorem cost_passthrough_and_price_table (now ts : Int) (attrs : Attrs) (s : Session)
    (tun : Option Int) (la : Option (List KeyValue))
    (herr : truthyN (aGet attrs "error.message") = false) :
    (codexProcessSseEvent now ts attrs s).costOf =
      (parseFloatAttr (orN (aGet attrs "cost_usd") (aGet attrs "cost")) "0").getD 0 ∧
    ((claudeProcessEvent now
        { body := some "claude_code.api_request", timeUnixNano := tun, attributes := la }
        attrs s).map NEvent.costOf) =
      some ((parseFloatAttr (orN (orN (aGet attrs "cost_usd") (aGet attrs "cost"))
        (aGet attrs "cost.usd")) "0").getD 0) ∧
    (∃ e : GenerationEvent,
      geminiProcessEvent now
        { body := some "gemini_cli.api_response", timeUnixNano := tun, attributes := la }
        attrs s = some (.generation e) ∧
      e.cost = (parseFloatAttr (orN (aGet attrs "cost_usd") (aGet attrs "cost")) "0").getD 0) ∧
    (∃ e : GenerationEvent,
      geminiProcessEvent now
        { body := some "gen_ai.client.inference.operation.details",
          timeUnixNano := tun, attributes := la }
        attrs s = some (.generation e) ∧
      e.cost = 0) ∧
    calculateCost (some "gpt-4o") 1000 500 0 0 = 3/400 ∧
    calculateCost (some "unknown-model") 1000000 1000000 0 0 = 20 := by
  refine ⟨?_, ?_, ?_, ?_, ?_, ?_⟩
  · simp [codexProcessSseEvent, herr, createGenerationEvent, NEvent.costOf]
  · simp [claudeProcessEvent, createGenerationEvent, NEvent.costOf]
  · exact ⟨_, rfl, rfl⟩
  · exact ⟨_, rfl, rfl⟩
  · with_unfolding_all rfl
  · with_unfolding_all rfl

/-- Witness for C2 at the concrete `codex.sse_event` attribute set. -/
theorem cost_passthrough_witness :
    truthyN (aGet sseAttrsEx "error.message") = false ∧
    (codexProcessSseEvent 0 0 sseAttrsEx (mkSession "c1" 0)).costOf =
      (parseFloatAttr (orN (aGet sseAttrsEx "cost_usd") (aGet sseAttrsEx "cost")) "0").getD 0 := by
  have h := cost_passthrough_and_price_table 0 0 sseAttrsEx (mkSession "c1" 0) none none
    (by with_unfolding_all rfl)
  exact ⟨by with_unfolding_all rfl, h.1⟩

end Telemetry

namespace Telemetry

/-- C5 counterexample: a Generation event arriving while `currentTrace`
is null does start a conversation (count incremented, trace opened,
start time recorded) but does **not** reset `toolSequence` — here the
pre-existing tool entry survives. -/
theorem generation_keeps_toolSequence :
    genSessEx.currentTrace = none ∧
    genSessEx.toolSequence ≠ [] ∧
    (exceptSt (handleGeneration noThrow 5 genEventEx (some .claude) genSessEx {})).1.conversationCount = 1 ∧
    (exceptSt (handleGeneration noThrow 5 genEventEx (some .claude) genSessEx {})).1.currentTrace = some 0 ∧
    (exceptSt (handleGeneration noThrow 5 genEventEx (some .claude) genSessEx {})).1.conversationStartTime = some 5 ∧
    (exceptSt (handleGeneration noThrow 5 genEventEx (some .claude) genSessEx {})).1.toolSequence =
      genSessEx.toolSequence := by
  refine ⟨rfl, by decide, ?_, ?_, ?_, ?_⟩ <;> with_unfolding_all rfl

/-- C5 (amended): with the sink client present, a ConversationStart event
always starts a new conversation (count +1, tool sequence cleared, start
time recorded, fresh trace opened); a UserPrompt arriving with no open
trace does the same; a Generation arriving with no open trace increments
the count, records the start time and opens a fresh trace but leaves
`toolSequence` unchanged. -/
theorem conversation_start_rules (now : Int) (s : Session) (k : SinkState)
    (e1 : ConversationStartEvent) (e2 : UserPromptEvent) (e3 : GenerationEvent)
    (ag : Option AgentKind) (hL : s.hasLangfuse = true) (hct : s.currentTrace = none) :
    ((exceptSt (handleConversationStart noThrow now e1 ag s k)).1.conversationCount =
        s.conversationCount + 1 ∧
      (exceptSt (handleConversationStart noThrow now e1 ag s k)).1.toolSequence = [] ∧
      (exceptSt (handleConversationStart noThrow now e1 ag s k)).1.conversationStartTime = some now ∧
      (exceptSt (handleConversationStart noThrow now e1 ag s k)).1.currentTrace = some k.nextId ∧
      traceCount (exceptSt (handleConversationStart noThrow now e1 ag s k)).2.log =
        traceCount k.log + 1) ∧
    ((exceptSt (handleUserPrompt noThrow now e2 ag s k)).1.conversationCount =
        s.conversationCount + 1 ∧
      (exceptSt (handleUserPrompt noThrow now e2 ag s k)).1.toolSequence = [] ∧
      (exceptSt (handleUserPrompt noThrow now e2 ag s k)).1.conversationStartTime = some now ∧
      (exceptSt (handleUserPrompt noThrow now e2 ag s k)).1.currentTrace = some k.nextId ∧
      traceCount (exceptSt (handleUserPrompt noThrow now e2 ag s k)).2.log =
        traceCount k.log + 1) ∧
    ((exceptSt (handleGeneration noThrow now e3 ag s k)).1.conversationCount =
        s.conversationCount + 1 ∧
      (exceptSt (handleGeneration noThrow now e3 ag s k)).1.conversationStartTime = some now ∧
      (exceptSt (handleGeneration noThrow now e3 ag s k)).1.currentTrace = some k.nextId ∧
      traceCount (exceptSt (handleGeneration noThrow now e3 ag s k)).2.log =
        traceCount k.log + 1 ∧
      (exceptSt (handleGeneration noThrow now e3 ag s k)).1.toolSequence = s.toolSequence) := by
  refine ⟨?_, ?_, ?_⟩
  · cases hm : e1.model with
    | none =>
      simp [handleConversationStart, sinkInvoke, noThrow, hL, hm, exceptSt, traceCount,
        List.filter_append]
    | some mv =>
      by_cases hme : mv.isEmpty <;>
        simp [handleConversationStart, sinkInvoke, noThrow, hL, hm, hme, exceptSt, traceCount,
          List.filter_append]
  · simp [handleUserPrompt, sinkInvoke, noThrow, hL, hct, exceptSt, traceCount,
      List.filter_append]
  · by_cases hd : e3.durationMs > 0 <;>
      simp [handleGeneration, sinkInvoke, noThrow, hL, hct, hd, exceptSt, traceCount,
        List.filter_append]

/-- Witness for C5 at a fresh session and concrete events. -/
theorem conversation_start_rules_witness :
    (mkSession "s1" 0).hasLangfuse = true ∧
    (mkSession "s1" 0).currentTrace = none ∧
    (exceptSt (handleGeneration noThrow 5 genEventEx (some .claude) (mkSession "s1" 0) {})).1.conversationCount =
      (mkSession "s1" 0).conversationCount + 1 := by
  have h := conversation_start_rules 5 (mkSession "s1" 0) {}
    { timestamp := 0, sessionId := "s1", userId := none, provider := "anthropic", model := none,
      approvalPolicy := none, sandboxPolicy := none, contextWindow := none, maxOutputTokens := none }
    { timestamp := 0, sessionId := "s1", userId := none, prompt := "", promptLength := 0 }
    genEventEx (some .claude) rfl rfl
  exact ⟨rfl, rfl, h.2.2.1⟩

end Telemetry

namespace Telemetry

/-- `scoreFlushCount` distributes over append. -/
theorem scoreFlushCount_append (l1 l2 : List SinkCall) :
    scoreFlushCount (l1 ++ l2) = scoreFlushCount l1 + scoreFlushCount l2 := by
  simp [scoreFlushCount, List.filter_append]

/-- `summaryCount` distributes over append. -/
theorem summaryCount_append (l1 l2 : List SinkCall) :
    summaryCount (l1 ++ l2) = summaryCount l1 + summaryCount l2 := by
  simp [summaryCount, List.filter_append]

/-- A healthy-sink `finalize` emits exactly one session-summary trace. -/
theorem finalize_noThrow_summaryCount (now : Int) (s : Session) (k : SinkState) :
    summaryCount (finalize noThrow now s k).2.log = summaryCount k.log + 1 := by
  unfold finalize finalizeTry
  rcases hsp : s.currentSpan with _ | spanId <;>
    rcases hct : s.currentTrace with _ | tid <;>
    rcases hcs : s.conversationStartTime with _ | t0 <;>
    by_cases hc : s.totalCost > 0 <;>
    simp [sinkInvoke, noThrow, hsp, hct, hcs, hc, summaryCount_append, summaryCount]

/-- C4: every failure inside `finalize` is caught — a thrown body
surfaces its partial state as the normal return value; when the
session-summary trace creation throws, the score/flush steps are
skipped entirely; and with a healthy sink the call runs to completion,
ending in the final flush. -/
theorem finalize_never_rethrows (b : SinkBehavior) (now : Int) (s : Session) (k : SinkState)
    (hsum : ∀ sid perf, b (.trace "session-summary" sid perf) = true) :
    (∀ st', finalizeTry b now s k = .error st' → finalize b now s k = st') ∧
    (∀ st', finalizeTry b now s k = .ok st' → finalize b now s k = st') ∧
    scoreFlushCount (finalize b now s k).2.log = scoreFlushCount k.log ∧
    (finalize noThrow now s k).2.log.getLast? = some .flush := by
  refine ⟨?_, ?_, ?_, ?_⟩
  · intro st' h
    unfold finalize
    rw [h]
  · intro st' h
    unfold finalize
    rw [h]
  · unfold finalize finalizeTry
    rcases hsp : s.currentSpan with _ | spanId <;>
      rcases hct : s.currentTrace with _ | tid <;>
      rcases hcs : s.conversationStartTime with _ | t0 <;>
      simp only [sinkInvoke, hsp, hct, hcs, hsum] <;>
      split_ifs <;>
      simp_all [scoreFlushCount, List.filter_append, hsum] <;>
      split_ifs <;>
      simp_all [scoreFlushCount, List.filter_append, hsum]
  · unfold finalize finalizeTry
    rcases hsp : s.currentSpan with _ | spanId <;>
      rcases hct : s.currentTrace with _ | tid <;>
      rcases hcs : s.conversationStartTime with _ | t0 <;>
      by_cases hc : s.totalCost > 0 <;>
      simp [sinkInvoke, noThrow, hsp, hct, hcs, hc, List.getLast?_concat]

/-- Witness for C4 with a sink whose `trace()` calls all throw. -/
theorem finalize_never_rethrows_witness :
    (∀ sid perf, traceThrows (.trace "session-summary" sid perf) = true) ∧
    scoreFlushCount (finalize traceThrows 0 finSessEx {}).2.log =
      scoreFlushCount (({} : SinkState)).log ∧
    (finalize noThrow 0 finSessEx {}).2.log.getLast? = some .flush := by
  have h := finalize_never_rethrows traceThrows 0 finSessEx {} (fun sid perf => rfl)
  exact ⟨fun sid perf => rfl, h.2.2.1, h.2.2.2⟩

end Telemetry

namespace Telemetry

/-- Looking up a key just erased yields nothing. -/
theorem lookup_eraseSess_self (m : SessMap) (sid : String) :
    lookupSess (eraseSess m sid) sid = none := by
  unfold lookupSess eraseSess
  rw [Option.map_eq_none']
  rw [List.find?_eq_none]
  intro x hx
  have hmem := (List.mem_filter.1 hx).2
  simp at hmem ⊢
  exact hmem

/-- Erasure preserves absence of any key. -/
theorem lookup_none_eraseSess (m : SessMap) (sid sid' : String)
    (h : lookupSess m sid = none) : lookupSess (eraseSess m sid') sid = none := by
  unfold lookupSess eraseSess at *
  rw [Option.map_eq_none'] at h ⊢
  rw [List.find?_eq_none] at h ⊢
  intro x hx
  exact h x (List.mem_filter.1 hx).1

/-- Erasing a different key does not change a lookup. -/
theorem lookup_eraseSess_ne (m : SessMap) (sid sid' : String) (h : sid ≠ sid') :
    lookupSess (eraseSess m sid') sid = lookupSess m sid := by
  unfold lookupSess eraseSess
  induction m with
  | nil => rfl
  | cons p t ih =>
    rw [List.filter_cons]
    by_cases hp : p.1 = sid'
    · rw [if_neg (by simp [hp])]
      rw [List.find?_cons_of_neg]
      · exact ih
      · simp
        intro hq
        exact absurd (hq.symm.trans hp) h
    · rw [if_pos (by simp [hp])]
      by_cases hps : p.1 = sid
      · rw [List.find?_cons_of_pos _ (by simp [hps]), List.find?_cons_of_pos _ (by simp [hps])]
      · rw [List.find?_cons_of_neg _ (by simp [hps]), List.find?_cons_of_neg _ (by simp [hps])]
        exact ih

/-- Absence of a key survives the whole cleanup fold (every step only
erases entries). -/
theorem cleanup_fold_preserves_none (b : SinkBehavior) (now : Int) :
    ∀ (ids : List String) (m : SessMap) (k : SinkState) (sid : String),
      lookupSess m sid = none →
      lookupSess ((ids.foldl (fun acc sid2 =>
        match lookupSess acc.1 sid2 with
        | none => (eraseSess acc.1 sid2, acc.2)
        | some s =>
          let (_, k') := finalize b now s acc.2
          (eraseSess acc.1 sid2, k')) (m, k)).1) sid = none := by
  intro ids
  induction ids with
  | nil => intro m k sid h; exact h
  | cons a t ih =>
    intro m k sid h
    rw [List.foldl_cons]
    rcases hl : lookupSess m a with _ | s0
    · simp only [hl]
      exact ih _ _ sid (lookup_none_eraseSess m sid a h)
    · simp only [hl]
      exact ih _ _ sid (lookup_none_eraseSess m sid a h)

/-- The cleanup fold over distinct, present ids erases each of them and
emits exactly one session-summary trace per id. -/
theorem cleanup_fold_spec (now : Int) :
    ∀ (ids : List String) (m : SessMap) (k : SinkState),
      ids.Nodup → (∀ sid ∈ ids, (lookupSess m sid).isSome = true) →
      (∀ sid ∈ ids,
        lookupSess ((ids.foldl (fun acc sid2 =>
          match lookupSess acc.1 sid2 with
          | none => (eraseSess acc.1 sid2, acc.2)
          | some s =>
            let (_, k') := finalize noThrow now s acc.2
            (eraseSess acc.1 sid2, k')) (m, k)).1) sid = none) ∧
      summaryCount ((ids.foldl (fun acc sid2 =>
          match lookupSess acc.1 sid2 with
          | none => (eraseSess acc.1 sid2, acc.2)
          | some s =>
            let (_, k') := finalize noThrow now s acc.2
            (eraseSess acc.1 sid2, k')) (m, k)).2.log) =
        summaryCount k.log + ids.length := by
  intro ids
  induction ids with
  | nil =>
    intro m k _ _
    exact ⟨fun sid h => absurd h (List.not_mem_nil sid), by simp⟩
  | cons a t ih =>
    intro m k hnd hsome
    have ha : (lookupSess m a).isSome = true := hsome a (List.mem_cons_self a t)
    rcases hl : lookupSess m a with _ | s0
    · rw [hl] at ha
      simp at ha
    have hndt : t.Nodup := (List.nodup_cons.1 hnd).2
    have hat : a ∉ t := (List.nodup_cons.1 hnd).1
    have hsome2 : ∀ sid ∈ t, (lookupSess (eraseSess m a) sid).isSome = true := by
      intro sid hsid
      have hne : sid ≠ a := fun hq => hat (hq ▸ hsid)
      rw [lookup_eraseSess_ne m sid a hne]
      exact hsome sid (List.mem_cons_of_mem a hsid)
    have hstep := ih (eraseSess m a) (finalize noThrow now s0 k).2 hndt hsome2
    constructor
    · intro sid hsid
      rw [List.foldl_cons]
      simp only [hl]
      rcases List.mem_cons.1 hsid with rfl | hmem
      · exact cleanup_fold_preserves_none noThrow now t _ _ sid (lookup_eraseSess_self m sid)
      · exact hstep.1 sid hmem
    · rw [List.foldl_cons]
      simp only [hl]
      rw [hstep.2, finalize_noThrow_summaryCount]
      simp only [List.length_cons]
      omega

/-- C3 counterexample: `finalize` has no reentry guard — two successive
calls on the same session emit the session-summary trace twice. -/
theorem finalize_twice_duplicates_summary :
    summaryCount (finalize noThrow 20 (finalize noThrow 10 finSessEx {}).1
      (finalize noThrow 10 finSessEx {}).2).2.log = 2 := by decide

/-- C3 (amended): `SessionHandler.finalize` itself is not idempotent —
each completed call emits a fresh session-summary trace; duplication is
prevented one level up: `cleanupSessions` removes each expired session
from the live map after finalizing it, so a sweep finalizes a session at
most once and later sweeps cannot see it again. -/
theorem cleanup_prevents_duplicate_summary (m : SessMap) (now timeout : Int) (k : SinkState)
    (hnd : (m.map Prod.fst).Nodup) :
    (∀ sid ∈ (m.filter (fun p => now - p.2.lastActivity > timeout)).map Prod.fst,
      lookupSess (cleanupSessions noThrow now timeout m k).1 sid = none) ∧
    summaryCount (cleanupSessions noThrow now timeout m k).2.log =
      summaryCount k.log +
        ((m.filter (fun p => now - p.2.lastActivity > timeout)).map Prod.fst).length := by
  have hsub : ((m.filter (fun p => now - p.2.lastActivity > timeout)).map Prod.fst).Sublist
      (m.map Prod.fst) := (List.filter_sublist m).map Prod.fst
  have hnd2 := hsub.nodup hnd
  have hsome : ∀ sid ∈ (m.filter (fun p => now - p.2.lastActivity > timeout)).map Prod.fst,
      (lookupSess m sid).isSome = true := by
    intro sid hsid
    rcases List.mem_map.1 hsid with ⟨p, hp, rfl⟩
    have hpm : p ∈ m := (List.mem_filter.1 hp).1
    unfold lookupSess
    rcases hfind : List.find? (fun q => q.1 = p.1) m with _ | q
    · rw [List.find?_eq_none] at hfind
      exact absurd (by simp) (hfind p hpm)
    · rw [hfind]
      rfl
  have h := cleanup_fold_spec now
    ((m.filter (fun p => now - p.2.lastActivity > timeout)).map Prod.fst) m k hnd2 hsome
  exact h

/-- Witness for C3 at a one-session map whose session has expired. -/
theorem cleanup_prevents_duplicate_summary_witness :
    (([("s1", finSessEx)] : SessMap).map Prod.fst).Nodup ∧
    lookupSess (cleanupSessions noThrow 7200000 3600000 [("s1", finSessEx)] {}).1 "s1" = none ∧
    summaryCount (cleanupSessions noThrow 7200000 3600000 [("s1", finSessEx)] {}).2.log =
      summaryCount (({} : SinkState)).log +
        ((([("s1", finSessEx)] : SessMap).filter
          (fun p => 7200000 - p.2.lastActivity > 3600000)).map Prod.fst).length := by
  have h := cleanup_prevents_duplicate_summary [("s1", finSessEx)] 7200000 3600000 {} (by decide)
  exact ⟨by decide, h.1 "s1" (by decide), h.2⟩

end Telemetry

namespace Telemetry

end Telemetry

namespace Telemetry

end Telemetry
